import Mathlib

/-!
Verification of the multiproxy forward HTTP proxy core.

This file gives a shallow embedding, in Lean, of the parts of the Go code
that the specification claims speak about:

* the canonical MIME header key normalisation and the header map operations
  used by the handlers (from the Go standard library types the code relies
  on, modelled to the extent the code exercises them);
* the plain-HTTP handler pipeline: hop-by-hop header removal,
  connection-listed header removal, and upstream error mapping
  (HTTPHandler.removeHopHeaders, HTTPHandler.removeConnectionHeaders,
  HTTPHandler.ServeHTTP);
* the host pattern matcher and the router dispatch
  (matcher.init, matcher.matches, Router.ServeHTTP);
* the tunnel copy loop error classification (Tunnel.copy, Tunnel.ServeHTTP);
* the certificate issuer (SelfSignedCA.Issue) and the MITM certificate
  fingerprint derivation (MITMHandler.certForRequest);
* the MITM CONNECT serving sequence (MITMHandler.ServeHTTP) and the
  in-memory inner response writer (mitmResponseWriter);
* the X-Forwarded-For middleware (XForwardedFor) together with the
  net.SplitHostPort routine it calls.

Go strings are modelled as lists of characters, Go machine integers as
Lean Int or Nat (no arithmetic in the embedded fragments overflows),
fallible operations as Except or Option, and panics as error results.
External library calls whose implementation is not part of the repository
(publicsuffix.EffectiveTLDPlusOne, net.ParseIP, time arithmetic) enter the
model as explicit oracle parameters: the embedded code is a function of
their results, exactly as the Go code is.
-/

deriving instance DecidableEq for Except

/-- Go strings, modelled as lists of characters. -/
abbrev GoStr := List Char

/-- Shorthand turning a Lean string literal into the Go string model. -/
def gs (s : String) : GoStr := s.toList

/-! ### textproto.CanonicalMIMEHeaderKey

The Go header map canonicalises keys with
textproto.CanonicalMIMEHeaderKey: if every byte is a valid header field
byte, the first letter and every letter following a hyphen is upper-cased
and every other letter is lower-cased; otherwise the key is returned
unchanged. -/

/-- ASCII lower-casing of a single character (Go byte case folding). -/
def goToLower (c : Char) : Char :=
  if c.toNat ≥ 65 ∧ c.toNat ≤ 90 then Char.ofNat (c.toNat + 32) else c

/-- ASCII upper-casing of a single character (Go byte case folding). -/
def goToUpper (c : Char) : Char :=
  if c.toNat ≥ 97 ∧ c.toNat ≤ 122 then Char.ofNat (c.toNat - 32) else c

/-- validHeaderFieldByte from net/textproto: the token characters of
RFC 7230 (letters, digits, and the listed specials). -/
def validHeaderFieldChar (c : Char) : Bool :=
  c.isAlphanum ||
    c ∈ (['!', '#', '$', '%', '&', Char.ofNat 39, '*', '+', '-', '.',
          '^', '_', Char.ofNat 96, '|', '~'] : List Char)

/-- The case-folding loop of canonicalMIMEHeaderKey: the flag carries
whether the previous character was a hyphen (or the start of the key). -/
def canonLoop : Bool → GoStr → GoStr
  | _, [] => []
  | upper, c :: rest =>
    let c' := if upper then goToUpper c else goToLower c
    c' :: canonLoop (c' = '-') rest

/-- textproto.CanonicalMIMEHeaderKey. -/
def canonicalMIMEHeaderKey (s : GoStr) : GoStr :=
  if s.all validHeaderFieldChar then canonLoop true s else s

/-! ### http.Header

Go http.Header is a map from canonical keys to lists of values. The code
only ever builds headers through Add/Set or receives them from the request
parser, so stored keys are canonical; we model the map as an association
list with canonical keys and look keys up after canonicalising them, which
is what Del/Values/Get/Set do. -/

/-- Model of Go http.Header: association list from canonical header name
to the list of values for that name. -/
abbrev Header := List (GoStr × List GoStr)

/-- http.Header.Del: remove all values associated with the (canonicalised)
key. -/
def Header.del (h : Header) (key : GoStr) : Header :=
  h.filter fun p => decide ¬(p.1 = canonicalMIMEHeaderKey key)

/-- http.Header.Values: the values associated with the (canonicalised)
key, or the empty list. -/
def Header.values (h : Header) (key : GoStr) : List GoStr :=
  match h.find? (fun p => decide (p.1 = canonicalMIMEHeaderKey key)) with
  | some p => p.2
  | none => []

/-- http.Header.Get: the first value associated with the key, or the empty
string. -/
def Header.get (h : Header) (key : GoStr) : GoStr :=
  match Header.values h key with
  | [] => []
  | v :: _ => v

/-- http.Header.Set: replace the values of the (canonicalised) key with a
single value. -/
def Header.set (h : Header) (key : GoStr) (val : GoStr) : Header :=
  Header.del h key ++ [(canonicalMIMEHeaderKey key, [val])]

/-- The header names a header map currently holds. -/
def Header.names (h : Header) : List GoStr := h.map Prod.fst

/-! ### HTTPHandler: plain-HTTP proxy request forwarding

From the plain-HTTP handler source: the hop-by-hop header list, the two
removal passes, and the ServeHTTP control flow around the upstream round
trip. The upstream transport is external; the embedded ServeHTTP is a
function of its result. -/

/-- The hopHeaders list from the plain-HTTP handler source. -/
def hopHeaders : List GoStr :=
  [gs "Connection", gs "Keep-Alive", gs "Proxy-Authenticate",
   gs "Proxy-Authorization", gs "Te", gs "Trailer", gs "Transfer-Encoding",
   gs "Upgrade", gs "Proxy-Connection"]

/-- HTTPHandler.removeHopHeaders: delete every hop-by-hop header by name. -/
def HTTPHandler.removeHopHeaders (h : Header) : Header :=
  hopHeaders.foldl Header.del h

/-- HTTPHandler.removeConnectionHeaders: for every value of the Connection
header, delete the header with that name. The Go loop ranges over the
slice returned by Values, obtained once before any deletion. -/
def HTTPHandler.removeConnectionHeaders (h : Header) : Header :=
  (Header.values h (gs "connection")).foldl Header.del h

/-- The header transformation ServeHTTP applies to the cloned request
before the upstream round trip: hop-by-hop removal first, then
connection-listed removal, in that order. -/
def HTTPHandler.upstreamHeader (h : Header) : Header :=
  HTTPHandler.removeConnectionHeaders (HTTPHandler.removeHopHeaders h)

/-- The round-trip error as the handler observes it: whether
errors.Is(err, context.DeadlineExceeded) holds. -/
structure RTError where
  isDeadlineExceeded : Bool
deriving DecidableEq, Repr

/-- Outcome of the plain-HTTP ServeHTTP: either an error response with the
given status was written to the client, or the request was forwarded and
the response (status, with the processed upstream request header) relayed. -/
inductive HTTPServeOutcome where
  | respond (status : Nat)
  | forwarded (upstreamHeader : Header) (upstreamStatus : Nat)
deriving DecidableEq, Repr

/-- HTTPHandler.ServeHTTP as a function of the request line data, the
incoming header, and the result of the upstream round trip: reject
requests without authority (400) and CONNECT requests (405); otherwise
clone the request, strip hop-by-hop and connection-listed headers, round
trip, and map a deadline-exceeded error to 504 and any other error to 502. -/
def HTTPHandler.serveModel (method urlHost : GoStr) (header : Header)
    (rtResult : Except RTError Nat) : HTTPServeOutcome :=
  if urlHost = [] then .respond 400
  else if method = gs "CONNECT" then .respond 405
  else
    let h := HTTPHandler.upstreamHeader header
    match rtResult with
    | .error e =>
      if e.isDeadlineExceeded then .respond 504 else .respond 502
    | .ok status => .forwarded h status

/-! ### Router: host patterns and dispatch

From the router source. A matcher carries the template and the handler;
init classifies the template (suffix when it starts with a dot, IP when
net.ParseIP accepts it) and matches dispatches on the classification with
the IP case taking precedence. net.ParseIP is a standard library routine;
its verdict on the template enters the model as the oracle ipLit. -/

/-- Handlers as the router sees them: a registered user handler (numbered),
or one of the two package-level default handlers NotFound (responds 404)
and MethodNotAllowed (responds 405). -/
inductive RHandler where
  | user (id : Nat)
  | notFoundH
  | methodNotAllowedH
deriving DecidableEq, Repr

/-- The status a default handler writes for every request; a user handler
has no fixed status. -/
def RHandler.defaultStatus : RHandler → Option Nat
  | .user _ => none
  | .notFoundH => some 404
  | .methodNotAllowedH => some 405

/-- A route entry: the pattern template string and its handler. -/
structure Matcher where
  tpl : GoStr
  handler : RHandler
deriving DecidableEq, Repr

/-- strings.HasPrefix, as the Go source defines it: s starts with p when
its first len(p) characters equal p. -/
def goHasPrefix (s p : GoStr) : Bool :=
  decide (p.length ≤ s.length) && decide (s.take p.length = p)

/-- strings.HasSuffix, as the Go source defines it: s ends with p when its
last len(p) characters equal p. -/
def goHasSuffix (s p : GoStr) : Bool :=
  decide (p.length ≤ s.length) && decide (s.drop (s.length - p.length) = p)

/-- matcher.matchesExact: byte-wise equality with the template. -/
def Matcher.matchesExact (tpl hostname : GoStr) : Bool :=
  decide (hostname = tpl)

/-- matcher.matchesSuffix: when the hostname is exactly one character
shorter than the template, test whether the template ends with the
hostname; otherwise test whether the hostname ends with the template. -/
def Matcher.matchesSuffix (tpl hostname : GoStr) : Bool :=
  if hostname.length = tpl.length - 1 then goHasSuffix tpl hostname
  else goHasSuffix hostname tpl

/-- matcher.matches after the once-guarded init: isIP is the net.ParseIP
verdict on the template (oracle ipLit), isSuffix holds when the template
starts with a dot; the switch tries the IP case, then the suffix case,
then exact matching. matchesIP delegates to matchesExact. -/
def Matcher.matchesModel (ipLit : GoStr → Bool) (tpl hostname : GoStr) : Bool :=
  if ipLit tpl then Matcher.matchesExact tpl hostname
  else if goHasPrefix tpl (gs ".") then Matcher.matchesSuffix tpl hostname
  else Matcher.matchesExact tpl hostname

/-- Router state: the three optional handler slots and the ordered route
list built by HandleConnectHost. -/
structure RouterS where
  dflt : Option RHandler
  connect : Option RHandler
  notFound : Option RHandler
  matchers : List Matcher
deriving DecidableEq, Repr

/-- The CONNECT dispatch loop of Router.ServeHTTP: h starts as the
fallback; the first matching route overwrites it and breaks. -/
def Router.connectLoop (ipLit : GoStr → Bool) (hostname : GoStr) :
    List Matcher → RHandler → RHandler
  | [], h => h
  | m :: rest, h =>
    if Matcher.matchesModel ipLit m.tpl hostname then m.handler
    else Router.connectLoop ipLit hostname rest h

/-- Router.ServeHTTP handler selection, with init inlined (each unset slot
replaced by its package default): CONNECT requests go through the route
loop seeded with the Connect slot; other requests with a nonempty URL host
go to the Default slot; everything else goes to the NotFound slot. -/
def Router.serveModel (ipLit : GoStr → Bool) (r : RouterS)
    (method urlHost hostname : GoStr) : RHandler :=
  if method = gs "CONNECT" then
    Router.connectLoop ipLit hostname r.matchers
      (r.connect.getD .methodNotAllowedH)
  else if ¬(urlHost = []) then r.dflt.getD .notFoundH
  else r.notFound.getD .notFoundH

/-! ### Tunnel: CONNECT relay copy loop

From the tunnel source. io.Copy returns a byte count and an error; the
error as the code inspects it is characterised by whether it wraps io.EOF
and whether it wraps os.ErrDeadlineExceeded (io.Copy itself returns nil
when the source reaches end of file). Tunnel.copy maps both of those to a
normal completion and passes any other error through. ServeHTTP runs one
copy per direction, waits for both, and records the upstream-to-client
byte count as the content length. -/

/-- A non-nil error coming out of io.Copy, characterised by the two
errors.Is tests the code applies to it. -/
structure CopyErr where
  isEOF : Bool
  isDeadlineExceeded : Bool
deriving DecidableEq, Repr

/-- Tunnel.copy given the io.Copy result (count, optional error): errors
wrapping io.EOF or os.ErrDeadlineExceeded become normal completions with
the count so far, anything else is returned unchanged. -/
def Tunnel.copyModel (res : Int × Option CopyErr) : Int × Option CopyErr :=
  match res with
  | (n, none) => (n, none)
  | (n, some e) =>
    if e.isEOF then (n, none)
    else if e.isDeadlineExceeded then (n, none)
    else (n, some e)

/-- Outcome of the relay phase of Tunnel.ServeHTTP: the per-direction
results after Tunnel.copy classification, and the recorded content length
(the upstream-to-client count). The conversation result is a function of
both raw direction results because ServeHTTP waits on both copies before
returning. -/
structure RelayResult where
  clientToUpstreamErr : Option CopyErr
  upstreamToClientErr : Option CopyErr
  contentLength : Int
deriving DecidableEq, Repr

/-- The relay phase of Tunnel.ServeHTTP, as a function of the raw io.Copy
results of the two directions: each direction is classified by Tunnel.copy
independently of the other, and the content length recorded in the proxy
context is the classified upstream-to-client byte count. -/
def Tunnel.relay (clientToUpstream upstreamToClient : Int × Option CopyErr) :
    RelayResult :=
  let a := Tunnel.copyModel clientToUpstream
  let b := Tunnel.copyModel upstreamToClient
  { clientToUpstreamErr := a.2
    upstreamToClientErr := b.2
    contentLength := b.1 }

/-! ### SelfSignedCA: leaf certificate issuance

From the issuer source. Cryptographic primitives (RSA key generation,
DER encoding, signing) are external; the embedding records the template
fields the code sets and the bit size the code passes to rsa.GenerateKey.
Wall-clock time and time.Time.AddDate are external as well and enter as
the oracle parameters now and addDate. -/

/-- Time instants, abstract; only equality matters to the claims. -/
abbrev GoTime := Int

/-- Certificate key usage values the code mentions. -/
inductive KeyUsage where
  | certSign
  | digitalSignature
deriving DecidableEq, Repr

/-- Extended key usage values the code mentions. -/
inductive ExtKeyUsage where
  | clientAuth
  | serverAuth
deriving DecidableEq, Repr

/-- The fields of the issued leaf certificate that SelfSignedCA.Issue
sets, plus the bit size of the RSA key generated for it. -/
structure IssuedCert where
  subjectCN : GoStr
  notBefore : GoTime
  notAfter : GoTime
  keyUsage : KeyUsage
  extKeyUsage : List ExtKeyUsage
  dnsNames : List GoStr
  ipAddresses : List GoStr
  keyBits : Nat
deriving DecidableEq, Repr

/-- DefaultIssuerBitSize from the issuer source. -/
def DefaultIssuerBitSize : Nat := 1024

/-- The bit size field after the once-guarded init: a zero field is
replaced by DefaultIssuerBitSize. -/
def SelfSignedCA.initBitSize (bitSize : Nat) : Nat :=
  if bitSize = 0 then DefaultIssuerBitSize else bitSize

/-- SelfSignedCA.Issue: clone the leaf template, set the subject common
name, validity window (now to now plus ten years via AddDate), key usage,
extended key usages and the two SAN lists, and generate an RSA key with
the literal bit size 1024 that the call to rsa.GenerateKey hard-codes.
The initialised BitSize field of the issuer is passed in as bitSize; the
Issue body does not consult it. -/
def SelfSignedCA.issueModel (bitSize : Nat) (now : GoTime)
    (addDate : GoTime → Int → Int → Int → GoTime)
    (cn : GoStr) (dnsnames : List GoStr) (ipaddresses : List GoStr) :
    IssuedCert :=
  { subjectCN := cn
    notBefore := now
    notAfter := addDate now 10 0 0
    keyUsage := .digitalSignature
    extKeyUsage := [.clientAuth, .serverAuth]
    dnsNames := dnsnames
    ipAddresses := ipaddresses
    keyBits := 1024 }

/-! ### MITMHandler: certificate fingerprint derivation

From the MITM handler source. publicsuffix.EffectiveTLDPlusOne and
net.ParseIP are external; their results on the hostname enter as
parameters. EffectiveTLDPlusOne returns the empty string together with a
non-nil error whenever it fails, so the failure case carries no string.
The ParseIP result is represented by the canonical textual form of the
address (ip.String()) when the hostname is an IP literal. -/

/-- The arguments certForRequest passes to Issuer.Issue. -/
structure Fingerprint where
  cn : GoStr
  dnsNames : List GoStr
  ipAddresses : List GoStr
deriving DecidableEq, Repr

/-- The fingerprint derivation inside MITMHandler.certForRequest:
etldRes is the EffectiveTLDPlusOne outcome on the hostname (some value on
success, none on failure, in which case the returned string is empty) and
ipRes is the ParseIP outcome (the canonical string for an IP literal).
On an EffectiveTLDPlusOne error the code uses the returned (empty) string
as the common name and appends it and its dot-prefixed form to the DNS
names; on success it uses the hostname as the common name and leaves the
DNS names empty. An IP literal then overrides the common name and adds
the address to the IP list. -/
def MITMHandler.certFingerprint (etldRes : Option GoStr) (ipRes : Option GoStr)
    (hostname : GoStr) : Fingerprint :=
  let tldplus : GoStr := match etldRes with
    | some t => t
    | none => []
  let (cn, dnsnames) : GoStr × List GoStr :=
    match etldRes with
    | none => (tldplus, [tldplus, gs "." ++ tldplus])
    | some _ => (hostname, [])
  match ipRes with
  | some ipStr => { cn := ipStr, dnsNames := dnsnames, ipAddresses := [ipStr] }
  | none => { cn := cn, dnsNames := dnsnames, ipAddresses := [] }

/-! ### MITMHandler.ServeHTTP: the CONNECT serving sequence

The embedding follows the control flow of the Go function over a scenario
describing how each external step turns out: whether the response writer
supports hijacking, whether the hijack call fails, whether certificate
issuance succeeds, whether the TLS handshake succeeds, and the byte
counter of the wrapping client connection at return time. The recording
of status 200 and of the counter value into the proxy context is a
deferred function registered after issuance succeeds and before the
handshake, so it runs on every later exit path. -/

/-- Scenario of one MITM CONNECT conversation. -/
structure MitmScenario where
  method : GoStr
  isHijacker : Bool
  hijackFails : Bool
  certOk : Bool
  handshakeOk : Bool
  tlsBytesWritten : Int
deriving DecidableEq, Repr

/-- Observable outcome of MITMHandler.ServeHTTP: the status written by
httpError when an error response was produced, whether the handler
panicked, and the status and content length recorded into the proxy
context by the deferred recording. -/
structure MitmOutcome where
  errorStatus : Option Nat
  panicked : Bool
  recordedStatus : Option Nat
  recordedLength : Option Int
deriving DecidableEq, Repr

/-- MITMHandler.ServeHTTP: reject non-CONNECT with 405; respond 500 and
panic if the writer is no hijacker; respond 500 on hijack failure; write
the 200 preamble; on certificate issuance failure respond 500 and return
with nothing recorded; once issuance succeeded, register the deferred
recording of status 200 and of the connection write counter, so that the
recording happens whether or not the TLS handshake and the inner request
loop succeed. -/
def MITMHandler.serveModel (sc : MitmScenario) : MitmOutcome :=
  if ¬(sc.method = gs "CONNECT") then
    { errorStatus := some 405, panicked := false,
      recordedStatus := none, recordedLength := none }
  else if ¬sc.isHijacker then
    { errorStatus := some 500, panicked := true,
      recordedStatus := none, recordedLength := none }
  else if sc.hijackFails then
    { errorStatus := some 500, panicked := false,
      recordedStatus := none, recordedLength := none }
  else if ¬sc.certOk then
    { errorStatus := some 500, panicked := false,
      recordedStatus := none, recordedLength := none }
  else
    { errorStatus := none, panicked := false,
      recordedStatus := some 200, recordedLength := some sc.tlsBytesWritten }

/-! ### mitmResponseWriter: the buffered inner response writer

From the MITM handler source: the writer state is the recorded status
code (zero until WriteHeader is called) and the hijacked flag. A second
WriteHeader after a nonzero status was recorded panics, and a second
Hijack panics; panics are modelled as error results. -/

/-- State of a mitmResponseWriter. -/
structure MitmRW where
  statusCode : Int
  hijacked : Bool
deriving DecidableEq, Repr

/-- The zero value of mitmResponseWriter as roundTrip constructs it. -/
def MitmRW.initial : MitmRW := { statusCode := 0, hijacked := false }

/-- mitmResponseWriter.WriteHeader: panic when a status code was already
recorded, otherwise record the given code. -/
def MitmRW.writeHeader (rw : MitmRW) (code : Int) : Except GoStr MitmRW :=
  if ¬(rw.statusCode = 0) then .error (gs "spurious header write")
  else .ok { rw with statusCode := code }

/-- mitmResponseWriter.Hijack: panic when already hijacked, otherwise set
the hijacked flag and hand out the underlying connection. -/
def MitmRW.hijack (rw : MitmRW) : Except GoStr MitmRW :=
  if rw.hijacked then .error (gs "spurious connection hijack")
  else .ok { rw with hijacked := true }

/-! ### net.SplitHostPort and the X-Forwarded-For middleware

The middleware calls net.SplitHostPort on the remote address and panics
on error; SplitHostPort is embedded from the standard library source the
code links against, since the claim quantifies over its verdict. -/

/-- Index of the last occurrence of a character, or none (the helper last
of the Go source, with -1 rendered as none). -/
def goLastIndexChar (s : GoStr) (c : Char) : Option Nat :=
  match s with
  | [] => none
  | x :: rest =>
    match goLastIndexChar rest c with
    | some i => some (i + 1)
    | none => if x = c then some 0 else none

/-- Index of the first occurrence of a character, or none (byteIndex of
the Go source, with -1 rendered as none). -/
def goIndexChar (s : GoStr) (c : Char) : Option Nat :=
  match s with
  | [] => none
  | x :: rest =>
    if x = c then some 0
    else match goIndexChar rest c with
      | some i => some (i + 1)
      | none => none

/-- net.SplitHostPort: the port starts after the last colon; a leading
bracket delimits an IPv6 host whose closing bracket must sit just before
that colon; otherwise the host may not itself contain a colon; and no
stray brackets may remain. Errors carry the message of the AddrError the
Go function returns. -/
def net.splitHostPort (s : GoStr) : Except GoStr (GoStr × GoStr) :=
  match goLastIndexChar s ':' with
  | none => .error (gs "missing port in address")
  | some i =>
    match s with
    | [] => .error (gs "missing port in address")
    | c0 :: _ =>
      if c0 = '[' then
        match goIndexChar s ']' with
        | none => .error (gs "missing ] in address")
        | some e =>
          if e + 1 = s.length then .error (gs "missing port in address")
          else if e + 1 = i then
            -- host between the brackets, port after the colon; no stray
            -- brackets may occur after the opening resp. closing one
            let host := (s.take e).drop 1
            if (goIndexChar (s.drop 1) '[').isSome then
              .error (gs "unexpected [ in address")
            else if (goIndexChar (s.drop (e + 1)) ']').isSome then
              .error (gs "unexpected ] in address")
            else .ok (host, s.drop (i + 1))
          else if s.get? (e + 1) = some ':' then
            .error (gs "too many colons in address")
          else .error (gs "missing port in address")
      else
        let host := s.take i
        if (goIndexChar host ':').isSome then
          .error (gs "too many colons in address")
        else if (goIndexChar s '[').isSome then
          .error (gs "unexpected [ in address")
        else if (goIndexChar s ']').isSome then
          .error (gs "unexpected ] in address")
        else .ok (host, s.drop (i + 1))

/-- The XForwardedFor middleware body: panic when the remote address does
not split into host and port; otherwise build the new header value from
the current X-Forwarded-For value (followed by a comma and a space, when
it is nonempty) and the host part, and set the header to it. The result
is the request header map handed to the wrapped handler. -/
def XForwardedFor.model (remoteAddr : GoStr) (h : Header) :
    Except GoStr Header :=
  match net.splitHostPort remoteAddr with
  | .error _ => .error (gs "invalid remote addr on request")
  | .ok (host, _) =>
    let orig := Header.get h (gs "x-forwarded-for")
    let v := if ¬(orig = []) then orig ++ gs ", " ++ host else host
    .ok (Header.set h (gs "x-forwarded-for") v)


/-! ## Theorems -/

/-- goHasSuffix agrees with the list suffix relation. -/
theorem goHasSuffix_iff (s p : GoStr) : goHasSuffix s p = true ↔ p <:+ s := by
  unfold goHasSuffix
  simp only [Bool.and_eq_true, decide_eq_true_eq]
  constructor
  · rintro ⟨-, heq⟩
    exact List.suffix_iff_eq_drop.mpr heq.symm
  · intro hsuf
    exact ⟨hsuf.length_le, (List.suffix_iff_eq_drop.mp hsuf).symm⟩

/-- Claim C4: for a suffix pattern, i.e. a template of the form dot-X that
net.ParseIP does not accept as an IP literal, matches returns true on a
hostname H exactly when H equals X or H ends with the template dot-X;
in particular the template dot-example.com matches example.com and
www.example.com but not example.net (see the witness). -/
theorem matcher_suffix_matches (ipLit : GoStr → Bool) (X H : GoStr)
    (hip : ipLit ('.' :: X) = false) :
    Matcher.matchesModel ipLit ('.' :: X) H = true ↔
      (H = X ∨ ('.' :: X) <:+ H) := by
  have hdot : goHasPrefix ('.' :: X) (gs ".") = true := by
    simp [goHasPrefix, gs]
  rw [Matcher.matchesModel, hip]
  simp only [Bool.false_eq_true, if_false, hdot, if_true]
  unfold Matcher.matchesSuffix
  by_cases hlen : H.length = ('.' :: X).length - 1
  · rw [if_pos hlen, goHasSuffix_iff]
    have hlen' : H.length = X.length := by simpa using hlen
    constructor
    · intro hsuf
      left
      have := List.suffix_iff_eq_drop.mp hsuf
      simpa [hlen'] using this
    · rintro (rfl | hsuf)
      · exact List.suffix_cons '.' H
      · exfalso
        have := hsuf.length_le
        simp [hlen'] at this
  · rw [if_neg hlen, goHasSuffix_iff]
    constructor
    · intro hsuf
      exact Or.inr hsuf
    · rintro (rfl | hsuf)
      · exfalso
        apply hlen
        simp
      · exact hsuf

/-- Witness for C4 at the concrete template of the spec: dot-example.com
matches example.com and www.example.com but not example.net. -/
theorem matcher_suffix_matches_witness :
    Matcher.matchesModel (fun _ => false) (gs ".example.com")
        (gs "example.com") = true
    ∧ Matcher.matchesModel (fun _ => false) (gs ".example.com")
        (gs "www.example.com") = true
    ∧ Matcher.matchesModel (fun _ => false) (gs ".example.com")
        (gs "example.net") = false := by
  refine ⟨?_, ?_, ?_⟩
  · exact (matcher_suffix_matches (fun _ => false) (gs "example.com")
      (gs "example.com") rfl).mpr (Or.inl (by decide))
  · exact (matcher_suffix_matches (fun _ => false) (gs "example.com")
      (gs "www.example.com") rfl).mpr (Or.inr (by decide))
  · have h := (matcher_suffix_matches (fun _ => false) (gs "example.com")
      (gs "example.net") rfl)
    by_contra hc
    simp only [Bool.not_eq_false] at hc
    rcases h.mp hc with h1 | h2
    · exact absurd h1 (by decide)
    · exact absurd h2 (by decide)

/-- The CONNECT dispatch loop returns the handler of the first matching
route, or the seed fallback when no route matches. -/
theorem Router.connectLoop_eq_find (ipLit : GoStr → Bool) (hostname : GoStr)
    (ms : List Matcher) (d : RHandler) :
    Router.connectLoop ipLit hostname ms d =
      ((ms.find? fun m => Matcher.matchesModel ipLit m.tpl hostname).map
        Matcher.handler).getD d := by
  induction ms with
  | nil => rfl
  | cons m rest ih =>
    by_cases h : Matcher.matchesModel ipLit m.tpl hostname = true
    · simp [Router.connectLoop, h, List.find?]
    · simp only [Bool.not_eq_true] at h
      simp [Router.connectLoop, h, List.find?, ih]

/-- Claim C5: on a CONNECT request the router picks the handler of the
first registered route whose pattern matches the hostname, and the
Connect slot (MethodNotAllowed when unset) when no route matches; an
unset Connect slot responds 405, and for non-CONNECT requests an unset
Default slot (nonempty URL host) or an unset NotFound slot (empty URL
host) responds 404. -/
theorem router_connect_dispatch (ipLit : GoStr → Bool) (r : RouterS)
    (method urlHost hostname : GoStr) :
    (method = gs "CONNECT" →
      (∀ m, r.matchers.find?
          (fun m => Matcher.matchesModel ipLit m.tpl hostname) = some m →
        Router.serveModel ipLit r method urlHost hostname = m.handler)
      ∧ (r.matchers.find?
          (fun m => Matcher.matchesModel ipLit m.tpl hostname) = none →
        Router.serveModel ipLit r method urlHost hostname =
          r.connect.getD .methodNotAllowedH))
    ∧ (method = gs "CONNECT" → r.connect = none →
        r.matchers.find?
          (fun m => Matcher.matchesModel ipLit m.tpl hostname) = none →
        (Router.serveModel ipLit r method urlHost hostname).defaultStatus =
          some 405)
    ∧ (¬(method = gs "CONNECT") → ¬(urlHost = []) → r.dflt = none →
        (Router.serveModel ipLit r method urlHost hostname).defaultStatus =
          some 404)
    ∧ (¬(method = gs "CONNECT") → urlHost = [] → r.notFound = none →
        (Router.serveModel ipLit r method urlHost hostname).defaultStatus =
          some 404) := by
  refine ⟨fun hm => ⟨fun m hfind => ?_, fun hfind => ?_⟩,
    fun hm hc hfind => ?_, fun hm hh hd => ?_, fun hm hh hn => ?_⟩
  · rw [Router.serveModel, if_pos hm, Router.connectLoop_eq_find, hfind]
    rfl
  · rw [Router.serveModel, if_pos hm, Router.connectLoop_eq_find, hfind]
    rfl
  · rw [Router.serveModel, if_pos hm, Router.connectLoop_eq_find, hfind, hc]
    rfl
  · rw [Router.serveModel, if_neg hm, if_pos hh, hd]
    rfl
  · rw [Router.serveModel, if_neg hm, if_neg (by simpa using hh), hn]
    rfl

/-- Witness for C5, the router ordering scenario of the spec: with routes
dot-example.com to handler 1 followed by example.com to handler 2 and all
slots unset, a CONNECT for example.com picks handler 1 (first match wins),
a CONNECT for example.net falls back to the 405 default, a non-CONNECT
proxy request gets the 404 default, and a non-proxy request gets 404. -/
theorem router_connect_dispatch_witness :
    Router.serveModel (fun _ => false)
        { dflt := none, connect := none, notFound := none,
          matchers := [{ tpl := gs ".example.com", handler := .user 1 },
                       { tpl := gs "example.com", handler := .user 2 }] }
        (gs "CONNECT") (gs "example.com:443") (gs "example.com") = .user 1
    ∧ (Router.serveModel (fun _ => false)
        { dflt := none, connect := none, notFound := none,
          matchers := [{ tpl := gs ".example.com", handler := .user 1 },
                       { tpl := gs "example.com", handler := .user 2 }] }
        (gs "CONNECT") (gs "example.net:443")
        (gs "example.net")).defaultStatus = some 405
    ∧ (Router.serveModel (fun _ => false)
        { dflt := none, connect := none, notFound := none, matchers := [] }
        (gs "GET") (gs "example.com") (gs "example.com")).defaultStatus =
        some 404
    ∧ (Router.serveModel (fun _ => false)
        { dflt := none, connect := none, notFound := none, matchers := [] }
        (gs "GET") (gs "") (gs "")).defaultStatus = some 404 := by
  refine ⟨?_, ?_, ?_, ?_⟩
  · exact ((router_connect_dispatch (fun _ => false) _ _ _ _).1 rfl).1
      { tpl := gs ".example.com", handler := .user 1 } (by decide)
  · exact (router_connect_dispatch (fun _ => false) _ _ _ _).2.1 rfl rfl
      (by decide)
  · exact (router_connect_dispatch (fun _ => false) _ _ _ _).2.2.1
      (by decide) (by decide) rfl
  · exact (router_connect_dispatch (fun _ => false) _ _ _ _).2.2.2
      (by decide) rfl rfl

/-- Claim C2: for a non-CONNECT plain-HTTP proxy request with nonempty
authority, a deadline-exceeded round-trip error yields a 504 response and
any other round-trip error (in particular any other I/O error, such as a
DNS failure or a refused connection) yields a 502 response. -/
theorem http_upstream_error_mapping (method urlHost : GoStr)
    (header : Header) (e : RTError)
    (hm : ¬(method = gs "CONNECT")) (hh : ¬(urlHost = [])) :
    (e.isDeadlineExceeded = true →
      HTTPHandler.serveModel method urlHost header (.error e) = .respond 504)
    ∧ (e.isDeadlineExceeded = false →
      HTTPHandler.serveModel method urlHost header (.error e) =
        .respond 502) := by
  constructor <;> intro he <;>
    simp [HTTPHandler.serveModel, hm, hh, he]

/-- Witness for C2: a GET for example.com with a deadline-exceeded
round-trip error responds 504, and with a non-deadline error responds
502. -/
theorem http_upstream_error_mapping_witness :
    HTTPHandler.serveModel (gs "GET") (gs "example.com") []
        (.error { isDeadlineExceeded := true }) = .respond 504
    ∧ HTTPHandler.serveModel (gs "GET") (gs "example.com") []
        (.error { isDeadlineExceeded := false }) = .respond 502 := by
  constructor
  · exact (http_upstream_error_mapping (gs "GET") (gs "example.com") []
      { isDeadlineExceeded := true } (by decide) (by decide)).1 rfl
  · exact (http_upstream_error_mapping (gs "GET") (gs "example.com") []
      { isDeadlineExceeded := false } (by decide) (by decide)).2 rfl

/-- Claim C3 fails on the code: in a plain-HTTP request whose Connection
header lists the token Foo and which carries a header Foo, the forwarded
upstream request still contains the header Foo. ServeHTTP calls
removeHopHeaders, which deletes the Connection header itself, before
removeConnectionHeaders reads it, so the connection-listed deletion never
removes anything; the evaluation below exhibits this on the full serve
pipeline. -/
theorem connection_listed_header_forwarded :
    Header.values [(gs "Connection", [gs "Foo"]), (gs "Foo", [gs "bar"])]
        (gs "Connection") = [gs "Foo"]
    ∧ HTTPHandler.serveModel (gs "GET") (gs "example.com")
        [(gs "Connection", [gs "Foo"]), (gs "Foo", [gs "bar"])] (.ok 200) =
        .forwarded [(gs "Foo", [gs "bar"])] 200
    ∧ gs "Foo" ∈ Header.names (HTTPHandler.upstreamHeader
        [(gs "Connection", [gs "Foo"]), (gs "Foo", [gs "bar"])])
    ∧ HTTPHandler.removeConnectionHeaders
        [(gs "Connection", [gs "Foo"]), (gs "Foo", [gs "bar"])] =
        [(gs "Connection", [gs "Foo"])] := by
  refine ⟨by decide, by decide, by decide, by decide⟩

/-- Claim C1 fails on the code: certForRequest swaps the success and
failure branches of the eTLD+1 computation. For hostname www.example.com,
whose eTLD+1 computation succeeds with example.com, the code passes the
hostname itself as common name and no DNS names to the issuer (the claim
demands common name example.com with DNS names example.com and
dot-example.com); for a hostname whose eTLD+1 computation fails, such as
localhost, the code passes the empty string returned by the failed
computation as common name together with the DNS names empty-string and
dot (the claim demands the hostname with no DNS names). -/
theorem certFingerprint_branches_swapped :
    MITMHandler.certFingerprint (some (gs "example.com")) none
        (gs "www.example.com") =
      { cn := gs "www.example.com", dnsNames := [], ipAddresses := [] }
    ∧ ¬(gs "www.example.com" = gs "example.com")
    ∧ MITMHandler.certFingerprint none none (gs "localhost") =
      { cn := [], dnsNames := [[], gs "."], ipAddresses := [] }
    ∧ ¬((gs "localhost" : GoStr) = []) := by
  refine ⟨by decide, by decide, by decide, by decide⟩

/-- Claim C6: a tunnel copy direction whose io.Copy result wraps io.EOF
or os.ErrDeadlineExceeded completes normally, returning no error and the
byte count so far; any other error is returned for that direction only,
while the other direction is classified independently (the relay outcome
is a function of both directions, reflecting that ServeHTTP waits for
both copies before the conversation ends). -/
theorem tunnel_copy_termination (n : Int) (e : CopyErr)
    (other : Int × Option CopyErr) :
    ((e.isEOF = true ∨ e.isDeadlineExceeded = true) →
      Tunnel.copyModel (n, some e) = (n, none))
    ∧ (e.isEOF = false → e.isDeadlineExceeded = false →
      Tunnel.copyModel (n, some e) = (n, some e)
      ∧ (Tunnel.relay other (n, some e)).upstreamToClientErr = some e
      ∧ (Tunnel.relay other (n, some e)).contentLength = n
      ∧ (Tunnel.relay other (n, some e)).clientToUpstreamErr =
          (Tunnel.copyModel other).2) := by
  constructor
  · rintro (he | he) <;> simp [Tunnel.copyModel, he]
  · intro he hd
    refine ⟨by simp [Tunnel.copyModel, he, hd], ?_, ?_, rfl⟩ <;>
      simp [Tunnel.relay, Tunnel.copyModel, he, hd]

/-- Witness for C6: an EOF completion returns no error with the count so
far; a deadline-exceeded completion likewise; a genuine error terminates
its own direction while the other direction (here an EOF completion)
still completes normally. -/
theorem tunnel_copy_termination_witness :
    Tunnel.copyModel (7, some { isEOF := true, isDeadlineExceeded := false })
        = (7, none)
    ∧ Tunnel.copyModel (5, some { isEOF := false, isDeadlineExceeded := true })
        = (5, none)
    ∧ Tunnel.copyModel (3, some { isEOF := false, isDeadlineExceeded := false })
        = (3, some { isEOF := false, isDeadlineExceeded := false })
    ∧ (Tunnel.relay (9, some { isEOF := true, isDeadlineExceeded := false })
        (3, some { isEOF := false, isDeadlineExceeded := false })).clientToUpstreamErr
        = none := by
  refine ⟨?_, ?_, ?_, ?_⟩
  · exact (tunnel_copy_termination 7
      { isEOF := true, isDeadlineExceeded := false } (0, none)).1
      (Or.inl rfl)
  · exact (tunnel_copy_termination 5
      { isEOF := false, isDeadlineExceeded := true } (0, none)).1
      (Or.inr rfl)
  · exact ((tunnel_copy_termination 3
      { isEOF := false, isDeadlineExceeded := false } (0, none)).2 rfl rfl).1
  · have h := ((tunnel_copy_termination 3
      { isEOF := false, isDeadlineExceeded := false }
      (9, some { isEOF := true, isDeadlineExceeded := false })).2 rfl rfl).2.2.2
    rw [h]
    decide

/-- Claim C7 fails on the code in one point: Issue hard-codes 1024 as the
RSA key size passed to rsa.GenerateKey, ignoring the configured BitSize
field (here initialised to 2048), while every other field of the claim is
set as claimed: subject common name, NotBefore now, NotAfter now plus ten
years via AddDate, key usage DigitalSignature, extended key usages
ClientAuth and ServerAuth, and exactly the supplied SAN lists. -/
theorem issue_ignores_configured_bitsize :
    SelfSignedCA.initBitSize 2048 = 2048
    ∧ (SelfSignedCA.issueModel (SelfSignedCA.initBitSize 2048) 0
        (fun t y _ _ => t + y) (gs "example.com") [gs "example.com"]
        [gs "192.0.2.1"]) =
      { subjectCN := gs "example.com"
        notBefore := 0
        notAfter := 10
        keyUsage := .digitalSignature
        extKeyUsage := [.clientAuth, .serverAuth]
        dnsNames := [gs "example.com"]
        ipAddresses := [gs "192.0.2.1"]
        keyBits := 1024 }
    ∧ ¬((1024 : Nat) = 2048)
    ∧ SelfSignedCA.initBitSize 0 = 1024 := by
  refine ⟨rfl, by decide, by decide, rfl⟩

/-- Claim C8: once a MITM CONNECT conversation has issued its certificate,
the deferred recording has been registered, so the proxy context receives
status 200 and the byte counter of the client socket as content length on
every later exit path; the TLS handshake outcome is quantified over, so
this covers a failed handshake in particular. -/
theorem mitm_records_status_despite_handshake_failure (sc : MitmScenario)
    (hm : sc.method = gs "CONNECT") (hhj : sc.isHijacker = true)
    (hje : sc.hijackFails = false) (hc : sc.certOk = true) :
    (MITMHandler.serveModel sc).recordedStatus = some 200
    ∧ (MITMHandler.serveModel sc).recordedLength =
        some sc.tlsBytesWritten := by
  constructor <;> simp [MITMHandler.serveModel, hm, hhj, hje, hc]

/-- Witness for C8: a CONNECT conversation that hijacks, issues a
certificate and then fails the TLS handshake still records status 200 and
the 42 bytes written on the client socket. -/
theorem mitm_records_status_despite_handshake_failure_witness :
    (MITMHandler.serveModel
      { method := gs "CONNECT", isHijacker := true, hijackFails := false,
        certOk := true, handshakeOk := false,
        tlsBytesWritten := 42 }).recordedStatus = some 200
    ∧ (MITMHandler.serveModel
      { method := gs "CONNECT", isHijacker := true, hijackFails := false,
        certOk := true, handshakeOk := false,
        tlsBytesWritten := 42 }).recordedLength = some 42 :=
  mitm_records_status_despite_handshake_failure
    { method := gs "CONNECT", isHijacker := true, hijackFails := false,
      certOk := true, handshakeOk := false, tlsBytesWritten := 42 }
    rfl rfl rfl rfl

/-- Claim C9: on the MITM inner response writer, WriteHeader panics when a
nonzero status code has already been recorded and Hijack panics when the
writer is already hijacked; consequently a WriteHeader recording a nonzero
code succeeds at most once, and Hijack succeeds at most once. -/
theorem mitm_rw_single_use (rw rw1 rw2 : MitmRW) (c c' : Int) :
    (¬(rw.statusCode = 0) →
      MitmRW.writeHeader rw c = .error (gs "spurious header write"))
    ∧ (rw.hijacked = true →
      MitmRW.hijack rw = .error (gs "spurious connection hijack"))
    ∧ (MitmRW.writeHeader rw c = .ok rw1 → ¬(c = 0) →
      MitmRW.writeHeader rw1 c' = .error (gs "spurious header write"))
    ∧ (MitmRW.hijack rw = .ok rw2 →
      MitmRW.hijack rw2 = .error (gs "spurious connection hijack")) := by
  refine ⟨fun hs => ?_, fun hh => ?_, fun hok hc => ?_, fun hok => ?_⟩
  · simp [MitmRW.writeHeader, hs]
  · simp [MitmRW.hijack, hh]
  · unfold MitmRW.writeHeader at hok ⊢
    by_cases hs : rw.statusCode = 0
    · rw [if_neg (by simpa using hs)] at hok
      cases hok
      simp [hc]
    · rw [if_pos (by simpa using hs)] at hok
      cases hok
  · unfold MitmRW.hijack at hok ⊢
    by_cases hh : rw.hijacked
    · rw [if_pos hh] at hok
      cases hok
    · rw [if_neg hh] at hok
      cases hok
      simp

/-- Witness for C9: from the initial writer state, recording status 200
succeeds once and a second WriteHeader panics; hijacking succeeds once and
a second Hijack panics. -/
theorem mitm_rw_single_use_witness :
    MitmRW.writeHeader { statusCode := 200, hijacked := false } 204 =
      .error (gs "spurious header write")
    ∧ MitmRW.hijack { statusCode := 0, hijacked := true } =
      .error (gs "spurious connection hijack")
    ∧ MitmRW.writeHeader { statusCode := 200, hijacked := false } 404 =
      .error (gs "spurious header write")
    ∧ MitmRW.hijack { statusCode := 0, hijacked := true } =
      .error (gs "spurious connection hijack") := by
  refine ⟨?_, ?_, ?_, ?_⟩
  · exact (mitm_rw_single_use { statusCode := 200, hijacked := false }
      MitmRW.initial MitmRW.initial 204 0).1 (by decide)
  · exact (mitm_rw_single_use { statusCode := 0, hijacked := true }
      MitmRW.initial MitmRW.initial 0 0).2.1 rfl
  · exact (mitm_rw_single_use MitmRW.initial
      { statusCode := 200, hijacked := false } MitmRW.initial 200 404).2.2.1
      rfl (by decide)
  · exact (mitm_rw_single_use MitmRW.initial MitmRW.initial
      { statusCode := 0, hijacked := true } 0 0).2.2.2 rfl

/-- Reading a header right after setting it returns the value just set. -/
theorem Header.get_set (h : Header) (k v : GoStr) :
    Header.get (Header.set h k v) k = v := by
  unfold Header.get Header.values Header.set Header.del
  rw [List.find?_append]
  have h1 : (h.filter fun p => decide ¬(p.1 = canonicalMIMEHeaderKey k)).find?
      (fun p => decide (p.1 = canonicalMIMEHeaderKey k)) = none := by
    rw [List.find?_eq_none]
    intro x hx
    have hmem := List.mem_filter.mp hx
    simpa using hmem.2
  rw [h1]
  simp [List.find?]

/-- Claim C10 as amended: the middleware panics exactly when
net.SplitHostPort rejects the remote address; otherwise it sets
X-Forwarded-For to the previous value followed by a comma, a space and
the host part, or to just the host part when the previous value read from
the header is empty (in particular when the header was absent). -/
theorem xff_sets_header (remoteAddr : GoStr) (h : Header)
    (host port : GoStr) :
    (∀ e, net.splitHostPort remoteAddr = .error e →
      XForwardedFor.model remoteAddr h =
        .error (gs "invalid remote addr on request"))
    ∧ (net.splitHostPort remoteAddr = .ok (host, port) →
      ∃ h2, XForwardedFor.model remoteAddr h = .ok h2
        ∧ Header.get h2 (gs "x-forwarded-for") =
            (if Header.get h (gs "x-forwarded-for") = [] then host
             else Header.get h (gs "x-forwarded-for") ++ gs ", " ++ host)) := by
  constructor
  · intro e he
    unfold XForwardedFor.model
    rw [he]
  · intro hok
    unfold XForwardedFor.model
    rw [hok]
    refine ⟨_, rfl, ?_⟩
    rw [Header.get_set]
    by_cases horig : Header.get h (gs "x-forwarded-for") = []
    · rw [if_pos horig, if_neg (by simpa using horig)]
    · rw [if_neg horig, if_pos (by simpa using horig)]

/-- Claim C10 as stated fails on the code: with an X-Forwarded-For header
that is present but carries the empty value and remote address
192.0.2.1:8080, the middleware sets the header to just the host part,
not to the previous (empty) value followed by a comma, a space and the
host part. -/
theorem xff_present_empty_value_counterexample :
    gs "X-Forwarded-For" ∈
      Header.names [(gs "X-Forwarded-For", [gs ""])]
    ∧ XForwardedFor.model (gs "192.0.2.1:8080")
        [(gs "X-Forwarded-For", [gs ""])] =
      .ok [(gs "X-Forwarded-For", [gs "192.0.2.1"])]
    ∧ Header.get [(gs "X-Forwarded-For", [gs "192.0.2.1"])]
        (gs "x-forwarded-for") = gs "192.0.2.1"
    ∧ ¬(gs "192.0.2.1" =
        Header.get [(gs "X-Forwarded-For", [gs ""])] (gs "x-forwarded-for")
          ++ gs ", " ++ gs "192.0.2.1") := by
  refine ⟨by decide, by decide, by decide, by decide⟩

/-- Witness for the amended C10: a malformed remote address (no port)
panics; a well-formed one appends the host to the existing value. -/
theorem xff_sets_header_witness :
    XForwardedFor.model (gs "192.0.2.1")
        [(gs "X-Forwarded-For", [gs "10.0.0.1"])] =
      .error (gs "invalid remote addr on request")
    ∧ ∃ h2, XForwardedFor.model (gs "192.0.2.1:8080")
        [(gs "X-Forwarded-For", [gs "10.0.0.1"])] = .ok h2
      ∧ Header.get h2 (gs "x-forwarded-for") = gs "10.0.0.1, 192.0.2.1" := by
  constructor
  · exact (xff_sets_header (gs "192.0.2.1")
      [(gs "X-Forwarded-For", [gs "10.0.0.1"])] [] []).1
      (gs "missing port in address") (by decide)
  · obtain ⟨h2, hh2, hval⟩ := (xff_sets_header (gs "192.0.2.1:8080")
      [(gs "X-Forwarded-For", [gs "10.0.0.1"])]
      (gs "192.0.2.1") (gs "8080")).2 (by decide)
    refine ⟨h2, hh2, ?_⟩
    rw [hval]
    decide
